import Mathlib

/-!
Verification of the WhispArg command-line argument library
(src/include/idofront/WhispArg.hpp).

The C++ header is shallowly embedded below.  Templates over the value type
`T` become Lean definitions generic over a type `α`; the compile-time test
`std::is_same_v<T, type::Flag>` that `Parse` performs becomes an explicit
`isFlag : Bool` parameter, instantiated with `true` exactly for the `Flag`
instantiations.  The mutating loop of `Parse` (WhispArg.hpp lines 251-277)
becomes the recursive function `scanTokens` carrying the loop state
`actualValue`; exceptions become `Except` values carrying the error kind
and the argument name.  Machine integers are modelled with `Nat`/`Int`
plus explicit `% 2 ^ w` where the C++ code narrows.
-/

set_option maxRecDepth 4096

deriving instance DecidableEq for Except

namespace whisparg

/-- The `type::Flag` wrapper class (WhispArg.hpp lines 46-73): a plain
boolean wrapper used to mark options whose mere presence means `true`. -/
structure Flag where
  value : Bool
deriving DecidableEq

/-- The singleton `Flag::True` (WhispArg.hpp line 82). -/
def Flag.True : Flag := ⟨true⟩

/-- The singleton `Flag::False` (WhispArg.hpp line 83). -/
def Flag.False : Flag := ⟨false⟩

/-- `Flag::ToString` (WhispArg.hpp lines 66-69). -/
def Flag.ToString (f : Flag) : String :=
  if f.value then "true" else "false"

/-- The `Argument<T>` declaration class (WhispArg.hpp lines 88-217):
name, optional short name (empty string when absent), description,
optional default, required flag, and the resolved value `_Value`. -/
structure Argument (α : Type) where
  name : String
  shortName : String
  description : String
  defaultValue : Option α
  isRequired : Bool
  value : Option α
deriving DecidableEq

/-- `Argument<T>::Update` (WhispArg.hpp lines 106-111): copy the argument
and assign the resolved value. -/
def Argument.Update {α : Type} (argument : Argument α) (value : Option α) : Argument α :=
  ⟨argument.name, argument.shortName, argument.description,
    argument.defaultValue, argument.isRequired, value⟩

/-- The builder `Argument<T>::Description(text)` (WhispArg.hpp lines
126-130).  The C++ member is non-const: it assigns `_Description` on the
receiver and then returns `*this` by value.  The state-passing translation
returns a pair: first component the receiver's state after the call,
second component the returned snapshot (a copy of the mutated receiver,
hence the two components coincide). -/
def Argument.Description {α : Type} (a : Argument α) (description : String) :
    Argument α × Argument α :=
  let updated : Argument α :=
    ⟨a.name, a.shortName, description, a.defaultValue, a.isRequired, a.value⟩
  (updated, updated)

/-- The builder `Argument<T>::Default(value)` (WhispArg.hpp lines 139-143),
same state-passing translation as `Argument.Description`. -/
def Argument.Default {α : Type} (a : Argument α) (defaultValue : α) :
    Argument α × Argument α :=
  let updated : Argument α :=
    ⟨a.name, a.shortName, a.description, some defaultValue, a.isRequired, a.value⟩
  (updated, updated)

/-- The builder `Argument<T>::IsRequired(bool)` (WhispArg.hpp lines
153-157), same state-passing translation as `Argument.Description`. -/
def Argument.IsRequired {α : Type} (a : Argument α) (isRequired : Bool) :
    Argument α × Argument α :=
  let updated : Argument α :=
    ⟨a.name, a.shortName, a.description, a.defaultValue, isRequired, a.value⟩
  (updated, updated)

/-- The error taxonomy of the resolution step (spec section 7).  In the
source all three are `std::invalid_argument` exceptions thrown by `Parse`
(WhispArg.hpp lines 272, 286, 301); each carries the argument's name. -/
inductive ParseError where
  | missingValue (name : String)
  | requiredMissing (name : String)
  | coercionFailure (name : String) (message : String)
deriving DecidableEq

/-- The test `argv[i][0] == '-'` (WhispArg.hpp line 253).  For the empty
string, `std::string::operator[]` at position `size()` reads the null
terminator, which differs from `'-'`, hence `false`. -/
def startsWithDash (tok : String) : Bool :=
  match tok.data with
  | [] => false
  | c :: _ => c = '-'

/-- The `isArgumentMatched` lambda (WhispArg.hpp lines 234-249): switch on
the candidate's length; length 0 and 1 never match, length 2 matches only
the short form `-s` when a short name exists, any longer candidate matches
only the long form `--name`. -/
def isArgumentMatched {α : Type} (argument : Argument α) (currentArgumentName : String) : Bool :=
  match currentArgumentName.length with
  | 0 => false
  | 1 => false
  | 2 =>
    if argument.shortName = "" then false
    else ("-" ++ argument.shortName) == currentArgumentName
  | _ + 3 => ("--" ++ argument.name) == currentArgumentName

/-- A token is treated as a switch for `argument` when the guard at
WhispArg.hpp line 253 and the match at line 256 both succeed. -/
def tokenMatches {α : Type} (argument : Argument α) (tok : String) : Bool :=
  startsWithDash tok && isArgumentMatched argument tok

/-- The scanning loop of `Parse` (WhispArg.hpp lines 251-277) as a
recursion over the remaining tokens, carrying the captured `actualValue`.
On a flag match the literal `"true"` is recorded and no token is consumed;
on a non-flag match the next token is consumed as the raw value
(`argv[++i]` followed by `continue`), and a match at the last position
throws "requires a value". -/
def scanTokens {α : Type} (argument : Argument α) (isFlag : Bool) :
    List String → String → Except ParseError String
  | [], actualValue => .ok actualValue
  | tok :: rest, actualValue =>
    if startsWithDash tok then
      if isArgumentMatched argument tok then
        if isFlag then
          scanTokens argument isFlag rest Flag.True.ToString
        else
          match rest with
          | [] => .error (ParseError.missingValue argument.name)
          | next :: rest2 => scanTokens argument isFlag rest2 next
      else
        scanTokens argument isFlag rest actualValue
    else
      scanTokens argument isFlag rest actualValue

/-- The free function `Parse` (WhispArg.hpp lines 225-303): scan the
tokens, then apply the required/default policy when nothing (or an empty
string) was captured, otherwise invoke the converter, wrapping its failure
with the argument's name. -/
def Parse {α : Type} (argv : List String) (argument : Argument α) (isFlag : Bool)
    (converter : String → Except String α) : Except ParseError (Option α) :=
  match scanTokens argument isFlag argv "" with
  | .error e => .error e
  | .ok actualValue =>
    if actualValue = "" then
      if argument.isRequired then
        .error (ParseError.requiredMissing argument.name)
      else
        .ok argument.defaultValue
    else
      match converter actualValue with
      | .ok v => .ok (some v)
      | .error msg => .error (ParseError.coercionFailure argument.name msg)

/-- The whitespace set of `std::istream` extraction and of `strtoll` in
the default locale: space, tab, newline, vertical tab, form feed,
carriage return. -/
def isStreamSpace (c : Char) : Bool :=
  c = ' ' || c = '\t' || c = '\n' || c = '\x0b' || c = '\x0c' || c = '\r'

/-- Leading-whitespace skipping performed by `strtoll`/`strtoull`. -/
def dropLeadingSpaces (l : List Char) : List Char :=
  l.dropWhile isStreamSpace

/-- The optional single sign accepted by `strtoll`/`strtoull`. -/
def splitSign : List Char → Bool × List Char
  | '-' :: rest => (true, rest)
  | '+' :: rest => (false, rest)
  | l => (false, l)

/-- Base-10 value of a digit run. -/
def digitsToNat (ds : List Char) : Nat :=
  ds.foldl (fun n c => n * 10 + (c.toNat - '0'.toNat)) 0

/-- `std::stoll` in base 10: skip whitespace, optional sign, at least one
digit (else `std::invalid_argument`), parse the maximal digit run and
ignore any trailing characters; `std::out_of_range` outside the `long
long` range `[-2^63, 2^63 - 1]`. -/
def stoll (s : String) : Except String Int :=
  let l := dropLeadingSpaces s.data
  let (isNegative, l2) := splitSign l
  let ds := l2.takeWhile Char.isDigit
  if ds = [] then .error "stoll: no conversion"
  else
    let magnitude := digitsToNat ds
    let v : Int := if isNegative then -(magnitude : Int) else (magnitude : Int)
    if v < -(2 ^ 63 : Int) ∨ (2 ^ 63 - 1 : Int) < v then .error "stoll: out of range"
    else .ok v

/-- `std::stoull` in base 10: same grammar as `stoll`;
`std::out_of_range` when the digit run exceeds `2^64 - 1`; a minus sign
negates the value in `unsigned long long`, i.e. modulo `2^64`. -/
def stoull (s : String) : Except String Nat :=
  let l := dropLeadingSpaces s.data
  let (isNegative, l2) := splitSign l
  let ds := l2.takeWhile Char.isDigit
  if ds = [] then .error "stoull: no conversion"
  else
    let magnitude := digitsToNat ds
    if (2 ^ 64 - 1 : Nat) < magnitude then .error "stoull: out of range"
    else .ok (if isNegative then (2 ^ 64 - magnitude % 2 ^ 64) % 2 ^ 64 else magnitude)

/-- Two's-complement truncation of an integer to `width` bits, modelling
the narrowing conversion from `long long` to the signed target type that
happens when the converter lambda's result is converted to `T`
(well defined modular arithmetic since C++20, and what the common
implementations do before that). -/
def toSigned (width : Nat) (v : Int) : Int :=
  let r := v % (2 ^ width : Int)
  if (2 ^ (width - 1) : Int) ≤ r then r - 2 ^ width else r

/-- The automatic converter for unsigned integer targets of bit width
`width` (WhispArg.hpp lines 341-345): `std::stoull`, whose `unsigned long
long` result is then narrowed to the target type, i.e. reduced
`% 2 ^ width`; no range check against the target type is performed. -/
def uintConverter (width : Nat) (value : String) : Except String Nat :=
  (stoull value).map (fun v => v % 2 ^ width)

/-- The automatic converter for signed integer targets of bit width
`width` (WhispArg.hpp lines 336-340): `std::stoll`, whose `long long`
result is then narrowed to the target type; no range check against the
target type is performed. -/
def intConverter (width : Nat) (value : String) : Except String Int :=
  (stoll value).map (toSigned width)

/-- The automatic converter for `std::string` targets (WhispArg.hpp lines
358-361): the identity. -/
def stringConverter (value : String) : Except String String :=
  .ok value

/-- The automatic converter for `type::Flag` targets (WhispArg.hpp lines
387-390): ignores the token and returns `Flag::True`. -/
def flagConverter (_ : String) : Except String Flag :=
  .ok Flag.True

/-- The preset `Help` argument (WhispArg.hpp lines 415-416). -/
def Help : Argument Flag :=
  ⟨"help", "h", "Show help message.", some Flag.False, false, none⟩

/-- The type-erased `ArgumentInformation` record (WhispArg.hpp lines
419-473) used by the help renderer. -/
structure ArgumentInformation where
  name : String
  shortName : String
  description : String
  isFlag : Bool
  isRequired : Bool
deriving DecidableEq

/-- `ArgumentInformation::New` (WhispArg.hpp lines 423-428); the
compile-time `std::is_same_v<T, type::Flag>` becomes the `isFlag`
parameter. -/
def ArgumentInformation.New {α : Type} (argument : Argument α) (isFlag : Bool) :
    ArgumentInformation :=
  ⟨argument.name, argument.shortName, argument.description, isFlag, argument.isRequired⟩

/-- The `WhispArg` session class (WhispArg.hpp lines 478-638): the raw
token list captured at construction and the accumulated declaration
information. -/
structure WhispArg where
  argumentValues : List String
  argumentInformations : List ArgumentInformation
deriving DecidableEq

/-- Splitting on `std::getline` (WhispArg.hpp lines 592-596): split the
text on newline characters; a trailing segment without a final newline
still yields a line, the empty text yields no line. -/
def splitLinesAux : List Char → List Char → List (List Char)
  | [], cur => if cur = [] then [] else [cur]
  | c :: cs, cur =>
    if c = '\n' then cur :: splitLinesAux cs []
    else splitLinesAux cs (cur ++ [c])

/-- Splitting on `words >> word` (WhispArg.hpp line 611): whitespace
separated maximal runs of non-whitespace characters. -/
def splitWordsAux : List Char → List Char → List (List Char)
  | [], cur => if cur = [] then [] else [cur]
  | c :: cs, cur =>
    if isStreamSpace c then
      if cur = [] then splitWordsAux cs []
      else cur :: splitWordsAux cs []
    else splitWordsAux cs (cur ++ [c])

/-- The greedy packing loop of `WrapLine` (WhispArg.hpp lines 611-636):
a word joins the current line when `currentLine.length + word.length + 1
<= maxWidth` (with a separating space when the line is non-empty);
otherwise the non-empty current line is flushed and the word starts a new
line; a non-empty final line is flushed at the end. -/
def wrapWordsAux (maxWidth : Nat) : List (List Char) → List Char → List (List Char)
  | [], currentLine => if currentLine = [] then [] else [currentLine]
  | w :: ws, currentLine =>
    if currentLine.length + w.length + 1 ≤ maxWidth then
      wrapWordsAux maxWidth ws (if currentLine = [] then w else currentLine ++ ' ' :: w)
    else
      if currentLine = [] then wrapWordsAux maxWidth ws w
      else currentLine :: wrapWordsAux maxWidth ws w

/-- `WhispArg::WrapLine` (WhispArg.hpp lines 604-637). -/
def WrapLine (text : String) (maxWidth : Nat) : List String :=
  (wrapWordsAux maxWidth (splitWordsAux text.data []) []).map String.mk

/-- `WhispArg::WrapLines` (WhispArg.hpp lines 586-599): split the text on
newlines and wrap each line independently, concatenating the results. -/
def WrapLines (text : String) (maxWidth : Nat) : List String :=
  ((splitLinesAux text.data []).map (fun line => WrapLine (String.mk line) maxWidth)).flatten

/-- Join words with single spaces: the contents of a help line produced by
the greedy packer when everything fits. -/
def joinWords : List (List Char) → List Char
  | [] => []
  | [w] => w
  | w :: ws => w ++ ' ' :: joinWords ws

/-- Per-character `std::toupper` (WhispArg.hpp lines 509-511). -/
def toUpper (s : String) : String :=
  String.mk (s.data.map Char.toUpper)

/-- The key string built for each declaration in `ShowHelp` (WhispArg.hpp
lines 513-519): `--name`, an optional ` (-s)` and, for non-flags, the
upper-cased value placeholder. -/
def helpKeyString (information : ArgumentInformation) : String :=
  "--" ++ information.name ++
    (if information.shortName = "" then "" else " (-" ++ information.shortName ++ ")") ++
    (if information.isFlag then "" else " <" ++ toUpper information.name ++ ">")

/-- A string of `n` spaces (`std::string(n, ' ')`). -/
def spaces (n : Nat) : String :=
  String.mk (List.replicate n ' ')

/-- The per-declaration body of the `for_each` in `ShowHelp` (WhispArg.hpp
lines 532-573).  In single-line mode the key, padded to `keysMaxLength`
plus two spaces, leads the first description line and continuation lines
are indented to the description column; with an empty wrap result the
padded key alone is emitted.  In stacked mode the key gets its own line
and every description line is indented by `maxWidth / 20` (the source
computes `std::size_t(maxWidth * (1.0 / 20.0))`, which equals the integer
division for all realistic widths). -/
def renderInfo (maxWidth keysMaxLength : Nat) (isOneLine : Bool)
    (information : ArgumentInformation) : List String :=
  let helpString := helpKeyString information
  let description := information.description
  if isOneLine then
    let padding := spaces (keysMaxLength - helpString.length)
    let descriptionWidth := maxWidth - keysMaxLength - 2
    let indentWidth := keysMaxLength + 2
    let leadingString := helpString ++ padding ++ "  "
    match WrapLines description descriptionWidth with
    | [] => [leadingString]
    | l0 :: rest => (leadingString ++ l0) :: rest.map (fun l => spaces indentWidth ++ l)
  else
    let indentWidth := maxWidth / 20
    let descriptionWidth := maxWidth - indentWidth
    helpString :: (WrapLines description descriptionWidth).map (fun l => spaces indentWidth ++ l)

/-- The `std::accumulate` at WhispArg.hpp lines 524-528: the maximum key
string length over the accumulated declarations, starting from 0. -/
def keysMaxLength (informations : List ArgumentInformation) : Nat :=
  informations.foldl (fun l information => max l (helpKeyString information).length) 0

/-- `WhispArg::ShowHelp` (WhispArg.hpp lines 499-578) as a pure function
returning the emitted lines: the usage header, the `Options:` line, then
the per-declaration lines; single-line mode is chosen when the maximum
key length is below `maxWidth / 3`. -/
def WhispArg.ShowHelp (w : WhispArg) (maxWidth : Nat := 80) : List String :=
  ("Usage: " ++ w.argumentValues.headD "" ++ " [options]") :: "Options:" ::
    (w.argumentInformations.map
      (renderInfo maxWidth (keysMaxLength w.argumentInformations)
        (decide (keysMaxLength w.argumentInformations < maxWidth / 3)))).flatten

/-- `WhispArg::Parse` (WhispArg.hpp lines 488-495): push the type-erased
information, then resolve; the push happens before resolution, so it
survives a resolution failure.  The pair returned is (session state after
the call, result); a thrown exception becomes an `error` result. -/
def WhispArg.Parse {α : Type} (w : WhispArg) (argument : Argument α) (isFlag : Bool)
    (converter : String → Except String α) : WhispArg × Except ParseError (Argument α) :=
  let information := ArgumentInformation.New argument isFlag
  let w2 : WhispArg := ⟨w.argumentValues, w.argumentInformations ++ [information]⟩
  match whisparg.Parse w.argumentValues argument isFlag converter with
  | .error e => (w2, .error e)
  | .ok result =>
    (w2, .ok (if result.isSome then Argument.Update argument result else argument))

/-- The `length` declaration of the end-to-end example
(`Argument<uint8_t>::New('l', "length").Default(1)`), value type modelled
as `Nat` with width-8 narrowing in its converter. -/
def lengthU8 : Argument Nat := ⟨"length", "l", "", some 1, false, none⟩

/-- A signed variant of the `length` declaration (`Argument<int8_t>`). -/
def lengthI8 : Argument Int := ⟨"length", "l", "", some 1, false, none⟩

/-- A required variant of the `length` declaration that also carries a
default value. -/
def requiredLength : Argument Nat := ⟨"length", "l", "", some 5, true, none⟩

/-- The `message` declaration of the end-to-end example
(`Argument<std::string>::New("message").Default("Hello, world!")`). -/
def messageArg : Argument String :=
  ⟨"message", "", "The message to be published.", some "Hello, world!", false, none⟩

/-- The `no-description` flag declaration of the example
(`Argument<type::Flag>::New('n', "no-description")`), with no default. -/
def noDescriptionArg : Argument Flag := ⟨"no-description", "n", "", none, false, none⟩

theorem scanTokens_cons_not_matched {α : Type} (argument : Argument α) (isFlag : Bool)
    (tok : String) (rest : List String) (acc : String)
    (h : tokenMatches argument tok = false) :
    scanTokens argument isFlag (tok :: rest) acc = scanTokens argument isFlag rest acc := by
  cases hd : startsWithDash tok with
  | false => cases rest <;> (rw [scanTokens.eq_def]; simp [hd])
  | true =>
    have hm : isArgumentMatched argument tok = false := by
      unfold tokenMatches at h
      rw [hd] at h
      simpa using h
    cases rest <;> (rw [scanTokens.eq_def]; simp [hd, hm])

theorem scanTokens_cons_matched_flag {α : Type} (argument : Argument α)
    (tok : String) (rest : List String) (acc : String)
    (h : tokenMatches argument tok = true) :
    scanTokens argument true (tok :: rest) acc
      = scanTokens argument true rest Flag.True.ToString := by
  obtain ⟨hd, hm⟩ : startsWithDash tok = true ∧ isArgumentMatched argument tok = true := by
    simpa [tokenMatches] using h
  cases rest <;> (rw [scanTokens.eq_def]; simp [hd, hm])

theorem scanTokens_cons_matched_last {α : Type} (argument : Argument α)
    (tok : String) (acc : String)
    (h : tokenMatches argument tok = true) :
    scanTokens argument false [tok] acc = .error (ParseError.missingValue argument.name) := by
  obtain ⟨hd, hm⟩ : startsWithDash tok = true ∧ isArgumentMatched argument tok = true := by
    simpa [tokenMatches] using h
  rw [scanTokens.eq_def]
  simp [hd, hm]

theorem scanTokens_cons_matched_consume {α : Type} (argument : Argument α)
    (tok next : String) (rest2 : List String) (acc : String)
    (h : tokenMatches argument tok = true) :
    scanTokens argument false (tok :: next :: rest2) acc
      = scanTokens argument false rest2 next := by
  obtain ⟨hd, hm⟩ : startsWithDash tok = true ∧ isArgumentMatched argument tok = true := by
    simpa [tokenMatches] using h
  rw [scanTokens.eq_def]
  simp [hd, hm]

theorem scanTokens_no_match {α : Type} (argument : Argument α) (isFlag : Bool) :
    ∀ (l : List String) (acc : String), (∀ t ∈ l, tokenMatches argument t = false) →
      scanTokens argument isFlag l acc = .ok acc := by
  intro l
  induction l with
  | nil => intro acc _; rfl
  | cons tok rest ih =>
    intro acc h
    have htok : tokenMatches argument tok = false := h tok (List.mem_cons_self _ _)
    have hrest : ∀ t ∈ rest, tokenMatches argument t = false :=
      fun t ht => h t (List.mem_cons_of_mem _ ht)
    rw [scanTokens_cons_not_matched argument isFlag tok rest acc htok]
    exact ih acc hrest

theorem scanTokens_append {α : Type} (argument : Argument α) (isFlag : Bool) (ys : List String) :
    ∀ (n : Nat) (xs : List String), xs.length ≤ n → ∀ (acc b : String),
      scanTokens argument isFlag xs acc = .ok b →
      scanTokens argument isFlag (xs ++ ys) acc = scanTokens argument isFlag ys b := by
  intro n
  induction n with
  | zero =>
    intro xs hlen acc b h
    cases xs with
    | nil =>
      rw [scanTokens.eq_1] at h
      injection h with h
      subst h
      rw [List.nil_append]
    | cons tok rest => simp at hlen
  | succ n ih =>
    intro xs hlen acc b h
    cases xs with
    | nil =>
      rw [scanTokens.eq_1] at h
      injection h with h
      subst h
      rw [List.nil_append]
    | cons tok rest =>
      have hrest : rest.length ≤ n := by simp at hlen; omega
      cases htm : tokenMatches argument tok with
      | false =>
        rw [scanTokens_cons_not_matched argument isFlag tok rest acc htm] at h
        rw [List.cons_append, scanTokens_cons_not_matched argument isFlag tok _ acc htm]
        exact ih rest hrest acc b h
      | true =>
        cases isFlag with
        | true =>
          rw [scanTokens_cons_matched_flag argument tok rest acc htm] at h
          rw [List.cons_append, scanTokens_cons_matched_flag argument tok _ acc htm]
          exact ih rest hrest _ b h
        | false =>
          cases rest with
          | nil =>
            rw [scanTokens_cons_matched_last argument tok acc htm] at h
            exact absurd h (by simp)
          | cons next rest2 =>
            rw [scanTokens_cons_matched_consume argument tok next rest2 acc htm] at h
            rw [List.cons_append, List.cons_append,
              scanTokens_cons_matched_consume argument tok next _ acc htm]
            exact ih rest2 (by simp at hrest; omega) next b h

theorem scanTokens_append_of_ok {α : Type} (argument : Argument α) (isFlag : Bool)
    (xs ys : List String) (acc b : String)
    (h : scanTokens argument isFlag xs acc = .ok b) :
    scanTokens argument isFlag (xs ++ ys) acc = scanTokens argument isFlag ys b :=
  scanTokens_append argument isFlag ys xs.length xs le_rfl acc b h

theorem scanTokens_flag {α : Type} (argument : Argument α) :
    ∀ (l : List String) (acc : String),
      scanTokens argument true l acc
        = .ok (cond (l.any (fun t => tokenMatches argument t)) "true" acc) := by
  intro l
  induction l with
  | nil => intro acc; rfl
  | cons tok rest ih =>
    intro acc
    cases htm : tokenMatches argument tok with
    | false =>
      rw [scanTokens_cons_not_matched argument true tok rest acc htm, ih acc]
      simp [List.any_cons, htm]
    | true =>
      rw [scanTokens_cons_matched_flag argument tok rest acc htm, ih Flag.True.ToString]
      have hts : Flag.True.ToString = "true" := rfl
      rw [hts]
      simp [List.any_cons, htm]

/-- Helper equation: `isArgumentMatched` at a candidate of length 2. -/
theorem isArgumentMatched_two {α : Type} (argument : Argument α) (tok : String)
    (h : tok.length = 2) :
    isArgumentMatched argument tok
      = if argument.shortName = "" then false else ("-" ++ argument.shortName) == tok := by
  unfold isArgumentMatched
  rw [h]

/-- Helper equation: `isArgumentMatched` at a candidate of length at least 3. -/
theorem isArgumentMatched_long {α : Type} (argument : Argument α) (tok : String) (k : Nat)
    (h : tok.length = k + 3) :
    isArgumentMatched argument tok = (("--" ++ argument.name) == tok) := by
  unfold isArgumentMatched
  rw [h]

/-- C1: for every declaration with `isRequired = true` and every token
list containing no token that matches the declaration's switch, `Parse`
fails with a RequiredMissing error, regardless of the declaration's
default value (which the hypotheses do not constrain). -/
theorem claim_c1 {α : Type} (argv : List String) (argument : Argument α) (isFlag : Bool)
    (converter : String → Except String α)
    (hreq : argument.isRequired = true)
    (hnone : ∀ t ∈ argv, tokenMatches argument t = false) :
    Parse argv argument isFlag converter = .error (ParseError.requiredMissing argument.name) := by
  unfold Parse
  rw [scanTokens_no_match argument isFlag argv "" hnone]
  simp [hreq]

/-- C1 witness: the required `length` declaration, which also has the
default value `5`, still fails with RequiredMissing on tokens that do not
match it. -/
theorem claim_c1_witness :
    Parse ["--other", "7"] requiredLength false (uintConverter 8)
      = .error (ParseError.requiredMissing "length") :=
  claim_c1 ["--other", "7"] requiredLength false (uintConverter 8) rfl (by decide)

/-- C2: for a non-flag declaration, when the scan of a prefix `xs`
completes normally, a further matching switch `m` follows with value `v`,
and no token after `v` matches, `Parse` returns the coercion of `v` — the
value following the last occurrence; earlier captures inside `xs` are
overwritten. -/
theorem claim_c2 {α : Type} (xs ys : List String) (argument : Argument α)
    (converter : String → Except String α) (m v b : String) (r : α)
    (hxs : scanTokens argument false xs "" = .ok b)
    (hm : tokenMatches argument m = true)
    (hys : ∀ t ∈ ys, tokenMatches argument t = false)
    (hv : v ≠ "")
    (hconv : converter v = .ok r) :
    Parse (xs ++ m :: v :: ys) argument false converter = .ok (some r) := by
  unfold Parse
  rw [scanTokens_append_of_ok argument false xs (m :: v :: ys) "" b hxs,
    scanTokens_cons_matched_consume argument m v ys b hm,
    scanTokens_no_match argument false ys v hys]
  simp [hv, hconv]

/-- C2 witness: the spec's example `--length 1 --length 2` resolves the
`length` declaration to `2` (last occurrence wins). -/
theorem claim_c2_witness :
    Parse ["--length", "1", "--length", "2"] lengthU8 false (uintConverter 8)
      = .ok (some 2) :=
  claim_c2 ["--length", "1"] [] lengthU8 (uintConverter 8) "--length" "2" "1" 2
    (by decide) (by decide) (by decide) (by decide) (by decide)

/-- C3 counterexample: in the token list `--message --message` the last
token matches the `message` declaration's switch, yet `Parse` does not
fail with MissingValue — the last token was consumed as the raw value of
the first occurrence and is returned as the resolved value. -/
theorem claim_c3_counterexample :
    tokenMatches messageArg "--message" = true ∧
    Parse ["--message", "--message"] messageArg false stringConverter
      = .ok (some "--message") ∧
    Parse ["--message", "--message"] messageArg false stringConverter
      ≠ .error (ParseError.missingValue "message") :=
  ⟨by decide, by decide, by decide⟩

/-- C3 amended: for a non-flag declaration, a token list whose last token
matches the declaration's switch and is actually reached by the scan as a
switch — that is, the preceding tokens scan to completion rather than
consuming the last token as a value — makes `Parse` fail with a
MissingValue error. -/
theorem claim_c3 {α : Type} (xs : List String) (argument : Argument α)
    (converter : String → Except String α) (m b : String)
    (hxs : scanTokens argument false xs "" = .ok b)
    (hm : tokenMatches argument m = true) :
    Parse (xs ++ [m]) argument false converter
      = .error (ParseError.missingValue argument.name) := by
  unfold Parse
  rw [scanTokens_append_of_ok argument false xs [m] "" b hxs,
    scanTokens_cons_matched_last argument m b hm]

/-- C3 witness: a switch alone at the end of the token list fails with
MissingValue. -/
theorem claim_c3_witness :
    Parse ["--length"] lengthU8 false (uintConverter 8)
      = .error (ParseError.missingValue "length") :=
  claim_c3 [] lengthU8 (uintConverter 8) "--length" "" rfl (by decide)

/-- C4: for every declaration and every token beginning with `-`: a token
of length 0 or 1 never matches; a token of length exactly 2 matches iff
the short name is non-empty and the token is `-` followed by the short
name; a token of any other length matches iff it equals `--` followed by
the long name. -/
theorem claim_c4 {α : Type} (argument : Argument α) (tok : String)
    (_hdash : startsWithDash tok = true) :
    ((tok.length = 0 ∨ tok.length = 1) → isArgumentMatched argument tok = false) ∧
    (tok.length = 2 →
      (isArgumentMatched argument tok = true ↔
        argument.shortName ≠ "" ∧ tok = "-" ++ argument.shortName)) ∧
    (2 < tok.length →
      (isArgumentMatched argument tok = true ↔ tok = "--" ++ argument.name)) := by
  refine ⟨?_, ?_, ?_⟩
  · rintro (h | h) <;> (unfold isArgumentMatched; rw [h])
  · intro h
    rw [isArgumentMatched_two argument tok h]
    by_cases hs : argument.shortName = ""
    · simp [hs]
    · simp only [hs, if_false, beq_iff_eq, ne_eq, not_false_iff, true_and]
      constructor
      · intro h2; exact h2.symm
      · intro h2; exact h2.symm
  · intro h
    obtain ⟨k, hk⟩ : ∃ k, tok.length = k + 3 := ⟨tok.length - 3, by omega⟩
    rw [isArgumentMatched_long argument tok k hk]
    simp only [beq_iff_eq]
    constructor
    · intro h2; exact h2.symm
    · intro h2; exact h2.symm

/-- C4 witness: the preset `help` declaration (short name `h`, long name
`help`) matches neither `--h` nor the 2-character token `-x`, while it
does match `-h`. -/
theorem claim_c4_witness :
    (isArgumentMatched Help "--h" = true ↔ ("--h" : String) = "--" ++ Help.name) ∧
    isArgumentMatched Help "--h" = false ∧
    (isArgumentMatched Help "-x" = true ↔
      Help.shortName ≠ "" ∧ ("-x" : String) = "-" ++ Help.shortName) ∧
    isArgumentMatched Help "-x" = false ∧
    isArgumentMatched Help "-h" = true :=
  ⟨(claim_c4 Help "--h" (by decide)).2.2 (by decide),
   by decide,
   (claim_c4 Help "-x" (by decide)).2.1 (by decide),
   by decide,
   by decide⟩

/-- C5 counterexample: coercion to the unsigned 8-bit `length` target
does not fail on `300`, which overflows `uint8_t`; the value is silently
truncated to `300 % 256 = 44` instead of raising a parse error. -/
theorem claim_c5_counterexample :
    (2 ^ 8 - 1 : Nat) < 300 ∧
    Parse ["--length", "300"] lengthU8 false (uintConverter 8) = .ok (some 44) ∧
    (44 : Nat) ≠ 300 :=
  ⟨by decide, by decide, by decide⟩

/-- C5 amended: integer coercion parses the token in base 10 through a
64-bit conversion (`std::stoll` for signed, `std::stoull` for unsigned
targets); invalid format or overflow of the 64-bit range fails with a
parse error naming the option, while a 64-bit success is truncated
modulo `2 ^ w` to the target width `w` — values overflowing only the
target type are wrapped, not rejected. -/
theorem claim_c5 (w : Nat) (argU : Argument Nat) (argS : Argument Int) (mU mS sU sS : String) :
    (tokenMatches argU mU = true → sU ≠ "" →
      Parse [mU, sU] argU false (uintConverter w)
        = match stoull sU with
          | .ok v => .ok (some (v % 2 ^ w))
          | .error e => .error (ParseError.coercionFailure argU.name e)) ∧
    (tokenMatches argS mS = true → sS ≠ "" →
      Parse [mS, sS] argS false (intConverter w)
        = match stoll sS with
          | .ok v => .ok (some (toSigned w v))
          | .error e => .error (ParseError.coercionFailure argS.name e)) := by
  constructor
  · intro hm hs
    unfold Parse
    rw [scanTokens_cons_matched_consume argU mU sU [] "" hm, scanTokens.eq_1]
    rcases h : stoull sU with e | v <;>
      simp [uintConverter, h, hs, Except.map]
  · intro hm hs
    unfold Parse
    rw [scanTokens_cons_matched_consume argS mS sS [] "" hm, scanTokens.eq_1]
    rcases h : stoll sS with e | v <;>
      simp [intConverter, h, hs, Except.map]

/-- C5 witness: `--length 300` on the unsigned 8-bit `length` declaration
yields `44`, and `--length -3` on the signed 8-bit variant yields `-3`. -/
theorem claim_c5_witness :
    Parse ["--length", "300"] lengthU8 false (uintConverter 8) = .ok (some 44) ∧
    Parse ["--length", "-3"] lengthI8 false (intConverter 8) = .ok (some (-3)) := by
  constructor
  · have h := (claim_c5 8 lengthU8 lengthI8 "--length" "--length" "300" "-3").1
      (by decide) (by decide)
    rw [h]
    decide
  · have h := (claim_c5 8 lengthU8 lengthI8 "--length" "--length" "300" "-3").2
      (by decide) (by decide)
    rw [h]
    decide

/-- C6 counterexample: the flag declaration `no-description` has no
default; with no matching token `Parse` returns the absent optional, not
the value `false`. -/
theorem claim_c6_counterexample :
    noDescriptionArg.defaultValue = none ∧
    Parse ["prog"] noDescriptionArg true flagConverter = .ok none ∧
    (Except.ok none : Except ParseError (Option Flag)) ≠ .ok (some Flag.False) :=
  ⟨rfl, by decide, by decide⟩

/-- C6 amended: for a Flag-typed declaration, any matching token anywhere
in the list yields `Flag.True` regardless of subsequent tokens and without
consuming a value token; with no matching token, a required declaration
fails with RequiredMissing and otherwise the declaration's default value
is returned as an optional — absent, not `false`, when no default was
set. -/
theorem claim_c6 (argv : List String) (argument : Argument Flag) :
    (argv.any (fun t => tokenMatches argument t) = true →
      Parse argv argument true flagConverter = .ok (some Flag.True)) ∧
    (argv.any (fun t => tokenMatches argument t) = false →
      Parse argv argument true flagConverter
        = if argument.isRequired then .error (ParseError.requiredMissing argument.name)
          else .ok argument.defaultValue) := by
  constructor
  · intro h
    unfold Parse
    rw [scanTokens_flag argument argv "", h]
    simp [flagConverter]
  · intro h
    unfold Parse
    rw [scanTokens_flag argument argv "", h]
    simp

/-- C6 witness: `-n` followed by an unrelated token resolves the
`no-description` flag to `Flag.True`. -/
theorem claim_c6_witness :
    Parse ["-n", "ignored"] noDescriptionArg true flagConverter = .ok (some Flag.True) :=
  (claim_c6 ["-n", "ignored"] noDescriptionArg).1 (by decide)

/-- C7: for a non-flag declaration, a matched switch whose captured value
token is the empty string is treated like no match at all: after the scan
`Parse` takes the default/required path, failing with RequiredMissing when
required and returning the default value otherwise. -/
theorem claim_c7 {α : Type} (xs ys : List String) (argument : Argument α)
    (converter : String → Except String α) (m b : String)
    (hxs : scanTokens argument false xs "" = .ok b)
    (hm : tokenMatches argument m = true)
    (hys : ∀ t ∈ ys, tokenMatches argument t = false) :
    Parse (xs ++ m :: "" :: ys) argument false converter
      = if argument.isRequired then .error (ParseError.requiredMissing argument.name)
        else .ok argument.defaultValue := by
  unfold Parse
  rw [scanTokens_append_of_ok argument false xs (m :: "" :: ys) "" b hxs,
    scanTokens_cons_matched_consume argument m "" ys b hm,
    scanTokens_no_match argument false ys "" hys]
  simp

/-- C7 witness: `--message ""` resolves the `message` declaration to its
default `"Hello, world!"`. -/
theorem claim_c7_witness :
    Parse ["--message", ""] messageArg false stringConverter
      = .ok (some "Hello, world!") :=
  claim_c7 [] [] messageArg stringConverter "--message" "" rfl (by decide) (by decide)

/-- C9 counterexample: the builder call `Description` does not leave the
receiver unchanged — the C++ member assigns the new text to the receiver
before returning the copy, so the receiver's post-state differs from its
pre-state. -/
theorem claim_c9_counterexample :
    ((⟨"number", "n", "old", none, false, none⟩ : Argument Nat).Description "new").1
      ≠ (⟨"number", "n", "old", none, false, none⟩ : Argument Nat) := by
  decide

/-- C9 amended: each builder call `Description`, `Default`, `IsRequired`
returns a snapshot in which exactly the named attribute carries the given
value and every other attribute equals the receiver's; however the
receiver is updated in place to the same snapshot (the return value is a
copy of the mutated receiver) rather than being left unchanged. -/
theorem claim_c9 {α : Type} (a : Argument α) (d : String) (v : α) (b : Bool) :
    ((a.Description d).2.description = d ∧
      (a.Description d).2.name = a.name ∧ (a.Description d).2.shortName = a.shortName ∧
      (a.Description d).2.defaultValue = a.defaultValue ∧
      (a.Description d).2.isRequired = a.isRequired ∧ (a.Description d).2.value = a.value ∧
      (a.Description d).1 = (a.Description d).2) ∧
    ((a.Default v).2.defaultValue = some v ∧
      (a.Default v).2.name = a.name ∧ (a.Default v).2.shortName = a.shortName ∧
      (a.Default v).2.description = a.description ∧
      (a.Default v).2.isRequired = a.isRequired ∧ (a.Default v).2.value = a.value ∧
      (a.Default v).1 = (a.Default v).2) ∧
    ((a.IsRequired b).2.isRequired = b ∧
      (a.IsRequired b).2.name = a.name ∧ (a.IsRequired b).2.shortName = a.shortName ∧
      (a.IsRequired b).2.description = a.description ∧
      (a.IsRequired b).2.defaultValue = a.defaultValue ∧ (a.IsRequired b).2.value = a.value ∧
      (a.IsRequired b).1 = (a.IsRequired b).2) :=
  ⟨⟨rfl, rfl, rfl, rfl, rfl, rfl, rfl⟩,
   ⟨rfl, rfl, rfl, rfl, rfl, rfl, rfl⟩,
   ⟨rfl, rfl, rfl, rfl, rfl, rfl, rfl⟩⟩

theorem splitWordsAux_ne_nil : ∀ (l cur : List Char), ∀ w ∈ splitWordsAux l cur, w ≠ [] := by
  intro l
  induction l with
  | nil =>
    intro cur w hw
    by_cases hcur : cur = []
    · simp [splitWordsAux, hcur] at hw
    · simp [splitWordsAux, hcur] at hw
      subst hw
      exact hcur
  | cons c cs ih =>
    intro cur w hw
    cases hsp : isStreamSpace c with
    | true =>
      by_cases hcur : cur = []
      · simp only [splitWordsAux, hsp, if_true, hcur, if_pos] at hw
        exact ih [] w hw
      · simp only [splitWordsAux, hsp, if_true, hcur, if_false, List.mem_cons] at hw
        rcases hw with rfl | hw
        · exact hcur
        · exact ih [] w hw
    | false =>
      simp only [splitWordsAux, hsp, Bool.false_eq_true, if_false] at hw
      exact ih (cur ++ [c]) w hw

theorem le_joinWords_cons_length (w : List Char) (ws : List (List Char)) :
    w.length ≤ (joinWords (w :: ws)).length := by
  cases ws <;> simp [joinWords]

theorem joinWords_cons_length_le (w : List Char) (ws : List (List Char)) :
    (joinWords (w :: ws)).length ≤ w.length + 1 + (joinWords ws).length := by
  cases ws with
  | nil => simp [joinWords]
  | cons x xs =>
    simp [joinWords]
    omega

theorem joinWords_splitWordsAux_le : ∀ (l cur : List Char),
    (joinWords (splitWordsAux l cur)).length ≤ l.length + cur.length := by
  intro l
  induction l with
  | nil =>
    intro cur
    by_cases hcur : cur = [] <;> simp [splitWordsAux, hcur, joinWords]
  | cons c cs ih =>
    intro cur
    cases hsp : isStreamSpace c with
    | true =>
      by_cases hcur : cur = []
      · simp only [splitWordsAux, hsp, if_true, hcur, if_pos]
        have := ih []
        simp at this ⊢
        omega
      · simp only [splitWordsAux, hsp, if_true, hcur, if_false]
        have h1 := joinWords_cons_length_le cur (splitWordsAux cs [])
        have h2 := ih []
        simp at h2 ⊢
        omega
    | false =>
      simp only [splitWordsAux, hsp, Bool.false_eq_true, if_false]
      have := ih (cur ++ [c])
      simp [List.length_append] at this ⊢
      omega

theorem joinWords_glue (cur w : List Char) (ws : List (List Char)) :
    joinWords ((cur ++ ' ' :: w) :: ws) = joinWords (cur :: w :: ws) := by
  cases ws <;> simp [joinWords, List.append_assoc]

theorem wrapWordsAux_fits (maxWidth : Nat) : ∀ (ws : List (List Char)) (cur : List Char),
    cur ≠ [] → (joinWords (cur :: ws)).length + 1 ≤ maxWidth →
    wrapWordsAux maxWidth ws cur = [joinWords (cur :: ws)] := by
  intro ws
  induction ws with
  | nil =>
    intro cur hcur hfit
    simp [wrapWordsAux, hcur, joinWords]
  | cons w ws ih =>
    intro cur hcur hfit
    have hjoin : joinWords (cur :: w :: ws) = cur ++ ' ' :: joinWords (w :: ws) := rfl
    have hwlen : w.length ≤ (joinWords (w :: ws)).length := le_joinWords_cons_length w ws
    have hcond : cur.length + w.length + 1 ≤ maxWidth := by
      rw [hjoin] at hfit
      simp [List.length_append] at hfit
      omega
    have hglue := joinWords_glue cur w ws
    rw [show wrapWordsAux maxWidth (w :: ws) cur
        = wrapWordsAux maxWidth ws (cur ++ ' ' :: w) by simp [wrapWordsAux, hcond, hcur]]
    rw [ih (cur ++ ' ' :: w) (by simp) (by rw [hglue]; exact hfit), hglue]

theorem wrapWordsAux_single (maxWidth : Nat) (ws : List (List Char))
    (hne : ws ≠ []) (hwords : ∀ w ∈ ws, w ≠ [])
    (hfit : (joinWords ws).length + 1 ≤ maxWidth) :
    wrapWordsAux maxWidth ws [] = [joinWords ws] := by
  cases ws with
  | nil => exact absurd rfl hne
  | cons w ws =>
    have hw : w ≠ [] := hwords w (List.mem_cons_self _ _)
    have hcond : (List.length ([] : List Char)) + w.length + 1 ≤ maxWidth := by
      have := le_joinWords_cons_length w ws
      simp
      omega
    rw [show wrapWordsAux maxWidth (w :: ws) []
        = wrapWordsAux maxWidth ws w by simp [wrapWordsAux, hcond]]
    exact wrapWordsAux_fits maxWidth ws w hw hfit

theorem splitLinesAux_no_newline : ∀ (l : List Char), (∀ c ∈ l, c ≠ '\n') →
    ∀ (cur : List Char),
      splitLinesAux l cur = if cur ++ l = [] then [] else [cur ++ l] := by
  intro l
  induction l with
  | nil =>
    intro _ cur
    simp [splitLinesAux]
  | cons c cs ih =>
    intro h cur
    have hc : ¬ (c = '\n') := h c (List.mem_cons_self _ _)
    have hcs : ∀ x ∈ cs, x ≠ '\n' := fun x hx => h x (List.mem_cons_of_mem _ hx)
    rw [show splitLinesAux (c :: cs) cur = splitLinesAux cs (cur ++ [c]) by
      simp [splitLinesAux, hc]]
    rw [ih hcs (cur ++ [c])]
    simp

/-- C8 counterexample: the empty description contains no line break and is
shorter than `maxWidth = 80`, yet the wrapping routine returns zero lines
rather than exactly one line equal to the trimmed input. -/
theorem claim_c8_counterexample :
    (∀ c ∈ ("" : String).data, c ≠ '\n') ∧
    ("" : String).length < 80 ∧
    WrapLines "" 80 = [] ∧
    (WrapLines "" 80).length ≠ 1 :=
  ⟨by decide, by decide, by decide, by decide⟩

/-- C8 amended: for a description with no embedded line break, at least
one non-whitespace character (its word split is non-empty), and length
below `maxWidth`, the wrapping routine returns exactly one line, equal to
the input trimmed of surrounding whitespace and with internal whitespace
runs collapsed to single spaces (the single-space join of its words); an
empty or whitespace-only description instead yields zero lines, and
already-collapsed trimmed input is returned unchanged. -/
theorem claim_c8 (text : String) (maxWidth : Nat)
    (hnl : ∀ c ∈ text.data, c ≠ '\n')
    (hwords : splitWordsAux text.data [] ≠ [])
    (hlen : text.length < maxWidth) :
    WrapLines text maxWidth = [String.mk (joinWords (splitWordsAux text.data []))] := by
  have hdata : text.data ≠ [] := by
    intro h0
    rw [h0] at hwords
    exact hwords rfl
  unfold WrapLines
  rw [splitLinesAux_no_newline text.data hnl []]
  rw [if_neg (by simpa using hdata)]
  simp only [List.nil_append, List.map_cons, List.map_nil, List.flatten_cons,
    List.flatten_nil, List.append_nil]
  unfold WrapLine
  have hfit : (joinWords (splitWordsAux text.data [])).length + 1 ≤ maxWidth := by
    have hle := joinWords_splitWordsAux_le text.data []
    have hlen2 : text.data.length = text.length := rfl
    simp at hle
    omega
  rw [show (String.mk text.data).data = text.data from rfl,
    wrapWordsAux_single maxWidth (splitWordsAux text.data [])
      hwords (splitWordsAux_ne_nil text.data []) hfit]
  rfl

/-- C8 witness: the single-spaced description `hello world` (length 11,
below the width 80) wraps to exactly one identical line. -/
theorem claim_c8_witness :
    (∀ c ∈ ("hello world" : String).data, c ≠ '\n') ∧
    ("hello world" : String).length < 80 ∧
    WrapLines "hello world" 80 = ["hello world"] := by
  refine ⟨by decide, by decide, ?_⟩
  rw [claim_c8 "hello world" 80 (by decide) (by decide) (by decide)]
  rfl

theorem renderInfo_key_line (maxWidth kml : Nat) (onl : Bool) (info : ArgumentInformation) :
    ∃ line ∈ renderInfo maxWidth kml onl info,
      ∃ s : List Char, line.data = (helpKeyString info).data ++ s := by
  cases onl with
  | false =>
    refine ⟨helpKeyString info, ?_, [], by simp⟩
    simp [renderInfo]
  | true =>
    cases hw : WrapLines info.description (maxWidth - kml - 2) with
    | nil =>
      refine ⟨helpKeyString info ++ spaces (kml - (helpKeyString info).length) ++ "  ", ?_,
        (spaces (kml - (helpKeyString info).length)).data ++ "  ".data, ?_⟩
      · simp [renderInfo, hw]
      · simp [String.data_append]
    | cons l0 rest =>
      refine ⟨helpKeyString info ++ spaces (kml - (helpKeyString info).length) ++ "  " ++ l0, ?_,
        (spaces (kml - (helpKeyString info).length)).data ++ "  ".data ++ l0.data, ?_⟩
      · simp [renderInfo, hw]
      · simp [String.data_append]

theorem showHelp_key_line (w : WhispArg) (maxWidth : Nat) (info : ArgumentInformation)
    (hinfo : info ∈ w.argumentInformations) :
    ∃ line ∈ w.ShowHelp maxWidth, ∃ s : List Char,
      line.data = (helpKeyString info).data ++ s := by
  obtain ⟨line, hmem, s, hs⟩ :=
    renderInfo_key_line maxWidth (keysMaxLength w.argumentInformations)
      (decide (keysMaxLength w.argumentInformations < maxWidth / 3)) info
  refine ⟨line, ?_, s, hs⟩
  unfold WhispArg.ShowHelp
  apply List.mem_cons_of_mem
  apply List.mem_cons_of_mem
  exact List.mem_flatten.mpr ⟨_, List.mem_map_of_mem _ hinfo, hmem⟩

/-- C10: `WhispArg::Parse` appends the declaration's type-erased
information to the session before resolution runs; the appended entry is
present in the post-state unconditionally — in particular whenever
resolution returns an error — and the option's key string occurs (as a
prefix of some line) in the help output rendered from the post-state. -/
theorem claim_c10 {α : Type} (w : WhispArg) (argument : Argument α) (isFlag : Bool)
    (converter : String → Except String α) (maxWidth : Nat) :
    (w.Parse argument isFlag converter).1.argumentInformations
        = w.argumentInformations ++ [ArgumentInformation.New argument isFlag] ∧
    (∀ e : ParseError, (w.Parse argument isFlag converter).2 = .error e →
      (w.Parse argument isFlag converter).1.argumentInformations
        = w.argumentInformations ++ [ArgumentInformation.New argument isFlag]) ∧
    ∃ line ∈ WhispArg.ShowHelp (w.Parse argument isFlag converter).1 maxWidth,
      ∃ s : List Char,
        line.data = (helpKeyString (ArgumentInformation.New argument isFlag)).data ++ s := by
  have hfst : (w.Parse argument isFlag converter).1
      = ⟨w.argumentValues, w.argumentInformations ++ [ArgumentInformation.New argument isFlag]⟩ := by
    cases h : whisparg.Parse w.argumentValues argument isFlag converter with
    | error e => simp [WhispArg.Parse, h]
    | ok r => simp [WhispArg.Parse, h]
  refine ⟨by rw [hfst], fun e _ => by rw [hfst], ?_⟩
  rw [hfst]
  exact showHelp_key_line _ maxWidth (ArgumentInformation.New argument isFlag)
    (List.mem_append_right _ (List.mem_singleton_self _))

/-- C10 witness: a session over `["prog"]` parsing the required `length`
declaration fails with RequiredMissing, yet the declaration's information
has been appended and its key `--length (-l) <LENGTH>` heads a line of the
rendered help. -/
theorem claim_c10_witness :
    ((⟨["prog"], []⟩ : WhispArg).Parse requiredLength false (uintConverter 8)).2
        = .error (ParseError.requiredMissing "length") ∧
    ((⟨["prog"], []⟩ : WhispArg).Parse requiredLength false
        (uintConverter 8)).1.argumentInformations
        = [ArgumentInformation.New requiredLength false] ∧
    ∃ line ∈ WhispArg.ShowHelp
        ((⟨["prog"], []⟩ : WhispArg).Parse requiredLength false (uintConverter 8)).1 80,
      ∃ s : List Char,
        line.data = (helpKeyString (ArgumentInformation.New requiredLength false)).data ++ s := by
  have h := claim_c10 (⟨["prog"], []⟩ : WhispArg) requiredLength false (uintConverter 8) 80
  refine ⟨by decide, ?_, h.2.2⟩
  have h2 := h.2.1 (ParseError.requiredMissing "length") (by decide)
  simpa using h2

end whisparg
